import Mathlib

noncomputable section

/-!
Verification of the blenvm procedural-expression compiler and evaluation
engine (Blender `blenvm` branch sources): the texture expression cache
(`bvm_api.cc`), the dual-value function wrapper synthesis
(`llvm_compiler_dual.cc`), and the elementary evaluation operations
(`bvm_eval_math.h`), embedded shallowly in Lean.
-/

namespace Blenvm

/-! ## Expression cache (`bvm_api.cc`: `BVM_texture_cache_acquire` etc.)

A `Tex` datablock is the cache key source: its address (modelled as `id`)
keys the cache, and its `use_nodes` flag and `nodetree` pointer decide
whether an expression can be compiled for it.  A compiled `Expression` is
modelled as an opaque numeric handle. -/

/-- A texture datablock as seen by the cache: identity (the `Tex*` pointer),
the `use_nodes` flag and whether a `nodetree` is present. -/
structure Tex where
  id : Nat
  use_nodes : Bool
  has_nodetree : Bool
deriving DecidableEq

/-- Compiled expression handle (opaque artifact). -/
abbrev Expression := Nat

/-- The cache map `unordered_map<Tex*, Expression*>`, modelled as an
association list keyed by texture identity. -/
abbrev ExpressionCache := List (Nat × Expression)

/-- Lookup in the cache map (`bvm_tex_cache.find(tex)`): first entry whose
key matches. -/
def cacheFind : ExpressionCache → Nat → Option Expression
  | [], _ => none
  | (k, e) :: rest, key => if k = key then some e else cacheFind rest key

/-- Embedding of `BVM_texture_cache_acquire` (bvm_api.cc).  The external
graph construction plus compilation (`BVM_gen_texture_expression`) is
abstracted as the parameter `gen`.  Returns the resulting expression
handle (or `none`), the updated cache, and whether a compilation was
performed on this call. -/
def BVM_texture_cache_acquire (gen : Tex → Expression) (cache : ExpressionCache)
    (tex : Tex) : Option Expression × ExpressionCache × Bool :=
  match cacheFind cache tex.id with
  | some e => (some e, cache, false)
  | none =>
    if tex.use_nodes && tex.has_nodetree then
      let expr := gen tex
      (some expr, (tex.id, expr) :: cache, true)
    else
      (none, cache, false)

/-- Embedding of `BVM_texture_cache_invalidate` (bvm_api.cc): destroy the
entry for the key if present. -/
def BVM_texture_cache_invalidate (cache : ExpressionCache) (tex : Tex) : ExpressionCache :=
  match cache with
  | [] => []
  | (k, e) :: rest =>
    if k = tex.id then rest else (k, e) :: BVM_texture_cache_invalidate rest tex

/-! ### Lock-scope view of `BVM_texture_cache_acquire`

For the concurrency claim, the same function is embedded as the sequence
of events its body performs, in source order.  The `scoped_lock` is
constructed at function entry and destroyed at every return, so `lock`
is the first event and `unlock` the last. -/

/-- Events performed by the body of `BVM_texture_cache_acquire`. -/
inductive CacheEvent where
  | lock
  | unlock
  | mapFind
  | compile
  | mapInsert
deriving DecidableEq, Fintype

/-- Event trace of `BVM_texture_cache_acquire`, by branch: `hit` is whether
the map lookup found the key, `has_nodes` whether `use_nodes && nodetree`
holds.  `scoped_lock lock(bvm_tex_mutex)` at entry gives the leading
`lock`; its destructor at each `return` gives the trailing `unlock`. -/
def BVM_texture_cache_acquire_trace (hit : Bool) (has_nodes : Bool) : List CacheEvent :=
  CacheEvent.lock :: CacheEvent.mapFind ::
    (if hit then [CacheEvent.unlock]
     else if has_nodes then [CacheEvent.compile, CacheEvent.mapInsert, CacheEvent.unlock]
     else [CacheEvent.unlock])

/-- Events of a trace that occur while the mutex is held (between a `lock`
event and the following `unlock`). -/
def eventsUnderLock : List CacheEvent → Bool → List CacheEvent
  | [], _ => []
  | CacheEvent.lock :: rest, _ => eventsUnderLock rest true
  | CacheEvent.unlock :: rest, _ => eventsUnderLock rest false
  | e :: rest, held => (if held then [e] else []) ++ eventsUnderLock rest held

/-! ## Argument-passing policy (`llvm_compiler_dual.cc`: `use_argument_pointer`) -/

/-- Modelled from the spec: the `TypeSpec` predicates `is_aggregate()`,
`is_structure()` and `bvm_type_has_dual_value()` are defined in typedesc
code outside the analyzed sources; per the spec's data model a TypeSpec
carries an aggregate/struct classification and a dual-carrying flag, kept
here as abstract boolean attributes. -/
structure TypeSpec where
  is_aggregate : Bool
  is_structure : Bool
  has_dual_value : Bool
deriving DecidableEq

/-- Dual-carrying test on a TypeSpec (`bvm_type_has_dual_value`). -/
def bvm_type_has_dual_value (typespec : TypeSpec) : Bool :=
  typespec.has_dual_value

/-- Embedding of `LLVMTextureCompiler::use_argument_pointer`
(llvm_compiler_dual.cc lines 231-247). -/
def use_argument_pointer (typespec : TypeSpec) (use_dual : Bool) : Bool :=
  if use_dual && bvm_type_has_dual_value typespec then
    true
  else if typespec.is_aggregate || typespec.is_structure then
    true
  else
    false

/-- The argument-passing policy as worded by the spec: pass by reference
exactly for aggregates, structures, and dual-carrying values passed
together with their derivative slots. -/
def spec_pass_by_reference (typespec : TypeSpec) (use_dual : Bool) : Bool :=
  typespec.is_aggregate || typespec.is_structure ||
    (use_dual && typespec.has_dual_value)

/-! ## Dual wrapper synthesis (`llvm_compiler_dual.cc`:
`define_dual_function_wrapper`, lines 429-530)

The wrapper's argument list and the instruction sequence it emits are
embedded symbolically.  A `NodeType` is reduced to what the wrapper
inspects: for every input, whether it is a `CONSTANT` input and whether
its TypeSpec is dual-carrying; for every output, whether its TypeSpec is
dual-carrying. -/

/-- An input socket of a NodeType as inspected by the wrapper generator. -/
structure NodeInput where
  is_constant : Bool
  has_dual : Bool
deriving DecidableEq

/-- An output socket of a NodeType as inspected by the wrapper generator. -/
structure NodeOutput where
  has_dual : Bool
deriving DecidableEq

/-- A NodeType as inspected by the wrapper generator. -/
structure NodeType where
  inputs : List NodeInput
  outputs : List NodeOutput
deriving DecidableEq

/-- One argument slot of the synthesized wrapper function: value, ∂x or
∂y slot of the i-th output, or value, ∂x or ∂y slot of the i-th input. -/
inductive Arg where
  | outVal : Nat → Arg
  | outDx : Nat → Arg
  | outDy : Nat → Arg
  | inVal : Nat → Arg
  | inDx : Nat → Arg
  | inDy : Nat → Arg
deriving DecidableEq

/-- The `call_args_value` list built by `define_dual_function_wrapper`:
for each output its value slot, then for each input its value slot. -/
def call_args_value (nt : NodeType) : List Arg :=
  (nt.outputs.enum.map fun p => Arg.outVal p.1) ++
    (nt.inputs.enum.map fun p => Arg.inVal p.1)

/-- The `call_args_dx` list built by `define_dual_function_wrapper`: the
∂x slot of each dual-carrying output, then for each input its value slot
followed, for non-constant dual-carrying inputs, by its ∂x slot. -/
def call_args_dx (nt : NodeType) : List Arg :=
  (nt.outputs.enum.filterMap fun p =>
    if p.2.has_dual then some (Arg.outDx p.1) else none) ++
    (nt.inputs.enum.flatMap fun p =>
      Arg.inVal p.1 ::
        (if !p.2.is_constant && p.2.has_dual then [Arg.inDx p.1] else []))

/-- The `call_args_dy` list built by `define_dual_function_wrapper`,
analogous to `call_args_dx` with the ∂y slots. -/
def call_args_dy (nt : NodeType) : List Arg :=
  (nt.outputs.enum.filterMap fun p =>
    if p.2.has_dual then some (Arg.outDy p.1) else none) ++
    (nt.inputs.enum.flatMap fun p =>
      Arg.inVal p.1 ::
        (if !p.2.is_constant && p.2.has_dual then [Arg.inDy p.1] else []))

/-- Instruction emitted into the wrapper's entry block: call of the value
function, call of the derivative function, or a store of the zero
constant through an argument slot (`none` when the `call_args` index is
out of range). -/
inductive Instr where
  | callValue : List Arg → Instr
  | callDeriv : List Arg → Instr
  | storeZero : Option Arg → Instr
deriving DecidableEq

/-- The zero-derivative stores emitted when no derivative function
exists: for each output index `i` with a dual-carrying TypeSpec, stores
of the zero constant through `call_args_dx[i]` and `call_args_dy[i]`. -/
def zero_derivative_stores (nt : NodeType) : List Instr :=
  nt.outputs.enum.flatMap fun p =>
    if p.2.has_dual then
      [Instr.storeZero ((call_args_dx nt).get? p.1),
       Instr.storeZero ((call_args_dy nt).get? p.1)]
    else []

/-- Embedding of `define_dual_function_wrapper`: the instruction sequence
emitted into the wrapper's entry block, given whether a derivative
function exists for the NodeType. -/
def define_dual_function_wrapper (nt : NodeType) (has_deriv : Bool) : List Instr :=
  Instr.callValue (call_args_value nt) ::
    (if has_deriv then
      [Instr.callDeriv (call_args_dx nt), Instr.callDeriv (call_args_dy nt)]
    else
      zero_derivative_stores nt)

/-! ## Get-derivative special case (`llvm_compiler_dual.cc`:
`define_get_derivative`, lines 532-602) -/

/-- A dual value triple (value, ∂x, ∂y). -/
structure DualV (α : Type) where
  val : α
  dx : α
  dy : α
deriving DecidableEq

/-- Embedding of `define_get_derivative`: the entry block stores zero
into the output's ∂x and ∂y slots, then a switch on the runtime index
argument `var` stores the input's ∂x (case 0) or ∂y (case 1) into the
output value slot; the default case falls through to the end block,
leaving the output value slot as it was. -/
def define_get_derivative {α : Type} [Zero α] (var : Int) (inp : DualV α)
    (out : DualV α) : DualV α :=
  let m : DualV α := { out with dx := 0, dy := 0 }
  if var = 0 then { m with val := inp.dx }
  else if var = 1 then { m with val := inp.dy }
  else m

/-! ## Elementary evaluation operations (`bvm_eval_math.h`)

Float values are given exact real-number semantics; the evaluation stack
maps slot indices to values. -/

/-- Modelled from the spec: the stack accessors of `bvm_eval_common.h`
are not among the analyzed sources; a stack slot holds one float
(`stack_load_float` reads it) and a float3 occupies three consecutive
slots. -/
def stack_load_float (stack : Nat → ℝ) (offset : Nat) : ℝ :=
  stack offset

/-- Store one float into a stack slot. -/
def stack_store_float (stack : Nat → ℝ) (offset : Nat) (f : ℝ) : Nat → ℝ :=
  Function.update stack offset f

/-- Load a float3 from three consecutive stack slots. -/
def stack_load_float3 (stack : Nat → ℝ) (offset : Nat) : ℝ × ℝ × ℝ :=
  (stack offset, stack (offset + 1), stack (offset + 2))

/-- Store a float3 into three consecutive stack slots. -/
def stack_store_float3 (stack : Nat → ℝ) (offset : Nat) (v : ℝ × ℝ × ℝ) : Nat → ℝ :=
  Function.update (Function.update (Function.update stack offset v.1) (offset + 1) v.2.1)
    (offset + 2) v.2.2

/-- Modelled from the spec: `div_safe` is declared in `bvm_util_math.h`,
which is not among the analyzed sources; the spec defines division by
zero to return the safe sentinel zero. -/
def div_safe (a b : ℝ) : ℝ :=
  if b = 0 then 0 else a / b

/-- Embedding of `eval_op_div_float` (bvm_eval_math.h lines 135-140). -/
def eval_op_div_float (stack : Nat → ℝ) (offset_a offset_b offset_r : Nat) : Nat → ℝ :=
  let a := stack_load_float stack offset_a
  let b := stack_load_float stack offset_b
  stack_store_float stack offset_r (div_safe a b)

/-- Truncation toward zero, as performed by the C `fmodf` function. -/
def trunc_toward_zero (x : ℝ) : ℝ :=
  if 0 ≤ x then (⌊x⌋ : ℝ) else (⌈x⌉ : ℝ)

/-- The C standard library `fmodf`, with real-valued semantics
`a - b * trunc(a / b)`. -/
def fmodf (a b : ℝ) : ℝ :=
  a - b * trunc_toward_zero (a / b)

/-- Embedding of `eval_op_modulo` (bvm_eval_math.h lines 226-231):
`fmodf` guarded by a nonzero divisor, zero otherwise. -/
def eval_op_modulo (stack : Nat → ℝ) (offset_a offset_b offset_r : Nat) : Nat → ℝ :=
  let a := stack_load_float stack offset_a
  let b := stack_load_float stack offset_b
  stack_store_float stack offset_r (if b ≠ 0 then fmodf a b else 0)

/-- The length `l = sqrtf(x² + y² + z²)` computed by
`eval_op_normalize_float3`. -/
def normalize_len (v : ℝ × ℝ × ℝ) : ℝ :=
  Real.sqrt (v.1 * v.1 + v.2.1 * v.2.1 + v.2.2 * v.2.2)

/-- The reciprocal-length factor `f = l > 0 ? 1/l : 0` computed by
`eval_op_normalize_float3`. -/
def normalize_fac (v : ℝ × ℝ × ℝ) : ℝ :=
  if normalize_len v > 0 then 1 / normalize_len v else 0

/-- Embedding of `eval_op_normalize_float3` (bvm_eval_math.h lines
314-322): stores the scaled vector and then the length. -/
def eval_op_normalize_float3 (stack : Nat → ℝ) (offset offset_vec offset_val : Nat) :
    Nat → ℝ :=
  let v := stack_load_float3 stack offset
  let l := normalize_len v
  let f := normalize_fac v
  let vec : ℝ × ℝ × ℝ := (v.1 * f, v.2.1 * f, v.2.2 * f)
  stack_store_float (stack_store_float3 stack offset_vec vec) offset_val l

/-- Concrete evaluation stack holding the input vector (3, 4, 0) in
slots 0-2. -/
def normalize_stack_341 : Nat → ℝ := fun i =>
  if i = 0 then 3 else if i = 1 then 4 else 0

end Blenvm

namespace Blenvm

/-- Hit case of `acquire`: the key is in the map. -/
lemma acquire_hit (gen : Tex → Expression) (cache : ExpressionCache) (tex : Tex)
    (e : Expression) (h : cacheFind cache tex.id = some e) :
    BVM_texture_cache_acquire gen cache tex = (some e, cache, false) := by
  unfold BVM_texture_cache_acquire
  rw [h]

/-- Miss case of `acquire` with a node graph available: compile and store. -/
lemma acquire_miss_nodes (gen : Tex → Expression) (cache : ExpressionCache) (tex : Tex)
    (h : cacheFind cache tex.id = none) (hn : (tex.use_nodes && tex.has_nodetree) = true) :
    BVM_texture_cache_acquire gen cache tex =
      (some (gen tex), (tex.id, gen tex) :: cache, true) := by
  unfold BVM_texture_cache_acquire
  rw [h]
  simp [hn]

/-- Miss case of `acquire` with no node graph: no expression. -/
lemma acquire_miss_no_nodes (gen : Tex → Expression) (cache : ExpressionCache) (tex : Tex)
    (h : cacheFind cache tex.id = none) (hn : (tex.use_nodes && tex.has_nodetree) = false) :
    BVM_texture_cache_acquire gen cache tex = (none, cache, false) := by
  unfold BVM_texture_cache_acquire
  rw [h]
  simp [hn]

/-- A key just inserted at the head of the cache is found. -/
lemma cacheFind_cons_self (cache : ExpressionCache) (k : Nat) (e : Expression) :
    cacheFind ((k, e) :: cache) k = some e := by
  unfold cacheFind
  rw [if_pos rfl]

/-- Claim C2: a cache key already present in the cache is returned as the
identical stored Expression by `acquire`, with no compilation and the
cache map unchanged; a compilation happens only when the key is absent;
and after any `acquire` that returned an expression, a second `acquire`
with no intervening invalidate returns the same expression, does not
compile, and leaves the map unchanged. -/
theorem C2_acquire_cached_no_recompile :
    (∀ (gen : Tex → Expression) (cache : ExpressionCache) (tex : Tex) (e : Expression),
      cacheFind cache tex.id = some e →
      BVM_texture_cache_acquire gen cache tex = (some e, cache, false)) ∧
    (∀ (gen : Tex → Expression) (cache : ExpressionCache) (tex : Tex),
      (BVM_texture_cache_acquire gen cache tex).2.2 = true →
      cacheFind cache tex.id = none) ∧
    (∀ (gen : Tex → Expression) (cache c₁ : ExpressionCache) (tex : Tex)
       (e : Expression) (f₁ : Bool),
      BVM_texture_cache_acquire gen cache tex = (some e, c₁, f₁) →
      BVM_texture_cache_acquire gen c₁ tex = (some e, c₁, false)) := by
  refine ⟨?_, ?_, ?_⟩
  · exact acquire_hit
  · intro gen cache tex h
    cases hfind : cacheFind cache tex.id with
    | some e =>
      rw [acquire_hit gen cache tex e hfind] at h
      simp at h
    | none => rfl
  · intro gen cache c₁ tex e f₁ h
    cases hfind : cacheFind cache tex.id with
    | some e' =>
      rw [acquire_hit gen cache tex e' hfind] at h
      simp only [Prod.mk.injEq, Option.some.injEq] at h
      obtain ⟨he, hc, -⟩ := h
      subst hc
      rw [← he]
      exact acquire_hit gen cache tex e' hfind
    | none =>
      by_cases hn : (tex.use_nodes && tex.has_nodetree) = true
      · rw [acquire_miss_nodes gen cache tex hfind hn] at h
        simp only [Prod.mk.injEq, Option.some.injEq] at h
        obtain ⟨he, hc, -⟩ := h
        subst hc
        rw [← he]
        exact acquire_hit gen _ tex (gen tex) (cacheFind_cons_self cache tex.id (gen tex))
      · have hn' : (tex.use_nodes && tex.has_nodetree) = false := by
          simpa using hn
        rw [acquire_miss_no_nodes gen cache tex hfind hn'] at h
        simp at h

/-- Claim C2 witness: concrete cache `[(1, 7)]`, texture with id 1. -/
theorem C2_acquire_cached_no_recompile_witness :
    cacheFind [(1, 7)] (Tex.mk 1 true true).id = some 7 ∧
    BVM_texture_cache_acquire (fun _ => 0) [(1, 7)] (Tex.mk 1 true true) =
      (some 7, [(1, 7)], false) :=
  ⟨by decide, C2_acquire_cached_no_recompile.1 (fun _ => 0) [(1, 7)] (Tex.mk 1 true true) 7 (by decide)⟩

/-- Claim C7: a texture whose key is absent and which supplies no node
graph (`use_nodes` unset or no node tree) yields "no expression": acquire
returns `none`, performs no compilation, and leaves the cache unchanged. -/
theorem C7_acquire_no_nodes_cache_miss :
    ∀ (gen : Tex → Expression) (cache : ExpressionCache) (tex : Tex),
      cacheFind cache tex.id = none →
      (tex.use_nodes = false ∨ tex.has_nodetree = false) →
      BVM_texture_cache_acquire gen cache tex = (none, cache, false) := by
  intro gen cache tex hfind hno
  unfold BVM_texture_cache_acquire
  rw [hfind]
  have hn : (tex.use_nodes && tex.has_nodetree) = false := by
    rcases hno with h | h <;> rw [h] <;> simp
  rw [hn]
  rfl

/-- Claim C7 witness: empty cache, texture with `use_nodes` unset. -/
theorem C7_acquire_no_nodes_cache_miss_witness :
    cacheFind [] (Tex.mk 2 false true).id = none ∧
    BVM_texture_cache_acquire (fun _ => 0) [] (Tex.mk 2 false true) = (none, [], false) :=
  ⟨by decide, C7_acquire_no_nodes_cache_miss (fun _ => 0) [] (Tex.mk 2 false true)
    (by decide) (Or.inl rfl)⟩

/-- Claim C5 counterexample: the claim says the mutex is held only around
the map lookup and insertion and not around compilation; in the code the
`scoped_lock` spans the whole function body, so on the miss-with-nodes
path the `compile` event occurs while the mutex is held. -/
theorem C5_compile_happens_under_lock :
    CacheEvent.compile ∈ eventsUnderLock (BVM_texture_cache_acquire_trace false true) false := by
  decide

/-- Claim C5 amended: `acquire` holds the single cache mutex for its full
duration — every map lookup, graph construction/compilation, and
insertion event of every branch occurs with the mutex held, so two
concurrent `acquire` calls are serialized and cannot both compile. -/
theorem C5_acquire_fully_locked :
    ∀ (hit has_nodes : Bool) (e : CacheEvent),
      e ∈ BVM_texture_cache_acquire_trace hit has_nodes →
      e ≠ CacheEvent.lock → e ≠ CacheEvent.unlock →
      e ∈ eventsUnderLock (BVM_texture_cache_acquire_trace hit has_nodes) false := by
  decide

/-- Claim C5 amended witness: the compile event of the miss-with-nodes
branch is under the lock. -/
theorem C5_acquire_fully_locked_witness :
    CacheEvent.compile ∈ BVM_texture_cache_acquire_trace false true ∧
    CacheEvent.compile ∈ eventsUnderLock (BVM_texture_cache_acquire_trace false true) false :=
  ⟨by decide, C5_acquire_fully_locked false true CacheEvent.compile (by decide)
    (by decide) (by decide)⟩

/-- Claim C6: the compiler's argument-passing predicate decides
pass-by-reference exactly when the TypeSpec is an aggregate or a
structure, or when a dual-carrying value is passed together with its own
derivative slots (`use_dual` set and the type has dual value); otherwise
pass by value. -/
theorem C6_use_argument_pointer_policy :
    ∀ (typespec : TypeSpec) (use_dual : Bool),
      use_argument_pointer typespec use_dual = spec_pass_by_reference typespec use_dual := by
  intro ⟨a, s, d⟩ ud
  cases a <;> cases s <;> cases d <;> cases ud <;> rfl

/-- A NodeType on which the zero-derivative branch of the wrapper
misbehaves: a non-dual output (such as the `int` output of
`INT_TO_RANDOM`) precedes a dual-carrying output, with one non-constant
non-dual input and no derivative function. -/
def nt_mixed_outputs : NodeType :=
  { inputs := [{ is_constant := false, has_dual := false }],
    outputs := [{ has_dual := false }, { has_dual := true }] }

/-- Claim C1: the wrapper calls the value function exactly once and, when
a derivative function exists, calls it exactly twice (once with the ∂x
argument set, once with the ∂y argument set); but the claim's zero-dual
clause fails: for a NodeType whose dual-carrying output is preceded by a
non-dual output, the zeroing loop indexes the compacted `call_args_dx` /
`call_args_dy` arrays with the raw output index, so the zero constant is
stored through the first input argument slot and the dual output's ∂x
and ∂y slots are never written. -/
theorem C1_zero_dual_store_misses_output :
    ((define_dual_function_wrapper nt_mixed_outputs false).filter
        (fun i => match i with | Instr.callValue _ => true | _ => false)).length = 1 ∧
    define_dual_function_wrapper nt_mixed_outputs true =
      [Instr.callValue [Arg.outVal 0, Arg.outVal 1, Arg.inVal 0],
       Instr.callDeriv [Arg.outDx 1, Arg.inVal 0],
       Instr.callDeriv [Arg.outDy 1, Arg.inVal 0]] ∧
    define_dual_function_wrapper nt_mixed_outputs false =
      [Instr.callValue [Arg.outVal 0, Arg.outVal 1, Arg.inVal 0],
       Instr.storeZero (some (Arg.inVal 0)),
       Instr.storeZero (some (Arg.inVal 0))] ∧
    Instr.storeZero (some (Arg.outDx 1)) ∉ define_dual_function_wrapper nt_mixed_outputs false ∧
    Instr.storeZero (some (Arg.outDy 1)) ∉ define_dual_function_wrapper nt_mixed_outputs false := by
  decide

/-- Claim C4: the get-derivative node function zeroes the output's own ∂x
and ∂y slots in every case, and dispatches on the runtime index over the
closed set {0, 1}: index 0 selects the upstream ∂x, index 1 the upstream
∂y, and any other index leaves the output value slot unwritten. -/
theorem C4_get_derivative_dispatch :
    ∀ {α : Type} [Zero α] (var : Int) (inp out : DualV α),
      (define_get_derivative var inp out).dx = 0 ∧
      (define_get_derivative var inp out).dy = 0 ∧
      (define_get_derivative var inp out).val =
        (if var = 0 then inp.dx else if var = 1 then inp.dy else out.val) := by
  intro α _ var inp out
  unfold define_get_derivative
  by_cases h0 : var = 0
  · simp [h0]
  · by_cases h1 : var = 1 <;> simp [h0, h1]

/-- Claim C3: `DIV_FLOAT` with a zero divisor stores the safe-divide
sentinel 0.0 into the result slot, for every dividend. -/
theorem C3_div_float_zero_divisor_sentinel :
    ∀ (stack : Nat → ℝ) (offset_a offset_b offset_r : Nat),
      stack offset_b = 0 →
      eval_op_div_float stack offset_a offset_b offset_r offset_r = 0 := by
  intro stack oa ob r hb
  unfold eval_op_div_float stack_store_float stack_load_float div_safe
  simp [Function.update_same, hb]

/-- Claim C3 witness: inputs (1.0, 0.0) yield output 0.0. -/
theorem C3_div_float_zero_divisor_sentinel_witness :
    (fun i => if i = 0 then (1 : ℝ) else 0) 1 = 0 ∧
    eval_op_div_float (fun i => if i = 0 then (1 : ℝ) else 0) 0 1 2 2 = 0 :=
  ⟨by norm_num, C3_div_float_zero_divisor_sentinel _ 0 1 2 (by norm_num)⟩

/-- Claim C10: `MODULO` with a zero divisor stores exactly 0.0 for every
dividend; the guard (not `fmodf`) produces this, since the unguarded
`fmodf a 0` would return `a`. -/
theorem C10_modulo_zero_divisor :
    (∀ (stack : Nat → ℝ) (offset_a offset_b offset_r : Nat),
      stack offset_b = 0 →
      eval_op_modulo stack offset_a offset_b offset_r offset_r = 0) ∧
    (∀ a : ℝ, fmodf a 0 = a) := by
  constructor
  · intro stack oa ob r hb
    unfold eval_op_modulo stack_store_float stack_load_float
    simp [Function.update_same, hb]
  · intro a
    unfold fmodf
    simp

/-- Claim C10 witness: dividend 5.0 with divisor 0.0 yields 0.0. -/
theorem C10_modulo_zero_divisor_witness :
    (fun i => if i = 0 then (5 : ℝ) else 0) 1 = 0 ∧
    eval_op_modulo (fun i => if i = 0 then (5 : ℝ) else 0) 0 1 2 2 = 0 :=
  ⟨by norm_num, C10_modulo_zero_divisor.1 _ 0 1 2 (by norm_num)⟩

/-- Claim C8: normalizing the input vector (3, 4, 0) stores the output
vector (0.6, 0.8, 0) in the vector slots and 5.0 in the length slot. -/
theorem C8_normalize_341 :
    eval_op_normalize_float3 normalize_stack_341 0 3 6 3 = 0.6 ∧
    eval_op_normalize_float3 normalize_stack_341 0 3 6 4 = 0.8 ∧
    eval_op_normalize_float3 normalize_stack_341 0 3 6 5 = 0 ∧
    eval_op_normalize_float3 normalize_stack_341 0 3 6 6 = 5 := by
  have hload : stack_load_float3 normalize_stack_341 0 = (3, 4, 0) := by
    unfold stack_load_float3 normalize_stack_341
    norm_num
  have hlen : normalize_len (3, 4, 0) = 5 := by
    unfold normalize_len
    norm_num
    rw [show (25 : ℝ) = 5 ^ 2 by norm_num, Real.sqrt_sq (by norm_num : (0:ℝ) ≤ 5)]
  have hfac : normalize_fac (3, 4, 0) = 1 / 5 := by
    unfold normalize_fac
    rw [hlen]
    norm_num
  refine ⟨?_, ?_, ?_, ?_⟩ <;>
    simp only [eval_op_normalize_float3, stack_store_float3, stack_store_float,
      hload, hlen, hfac] <;>
    norm_num [Function.update]

/-- Claim C9: the zero input vector normalizes to the zero vector with
length output 0, and for every input vector the reciprocal-length factor
is guarded by the `l > 0` test: it is a true reciprocal when the length
is positive and exactly zero when the length is zero, so no division by
zero occurs. -/
theorem C9_normalize_zero_guard :
    (∀ i : Nat, eval_op_normalize_float3 (fun _ => 0) 0 3 6 i = 0) ∧
    (∀ v : ℝ × ℝ × ℝ,
      (0 < normalize_len v ∧ normalize_fac v * normalize_len v = 1) ∨
      (normalize_len v = 0 ∧ normalize_fac v = 0)) := by
  constructor
  · intro i
    have hlen : normalize_len (0, 0, 0) = (0 : ℝ) := by
      unfold normalize_len
      norm_num
    have hfac : normalize_fac (0, 0, 0) = (0 : ℝ) := by
      unfold normalize_fac
      rw [hlen]
      norm_num
    have hload : stack_load_float3 (fun _ => (0 : ℝ)) 0 = (0, 0, 0) := rfl
    simp only [eval_op_normalize_float3, stack_store_float3, stack_store_float,
      hload, hlen, hfac]
    simp [Function.update]
  · intro v
    rcases lt_or_eq_of_le
        (Real.sqrt_nonneg (v.1 * v.1 + v.2.1 * v.2.1 + v.2.2 * v.2.2)) with h | h
    · left
      have hl : 0 < normalize_len v := h
      refine ⟨hl, ?_⟩
      unfold normalize_fac
      rw [if_pos hl]
      exact one_div_mul_cancel (ne_of_gt hl)
    · right
      have hl : normalize_len v = 0 := h.symm
      refine ⟨hl, ?_⟩
      unfold normalize_fac
      rw [hl]
      norm_num

end Blenvm
